import Mathlib

/-!
Verification of the workflow-orchestrator core of `aws_strand_agent`
(`src/aws_strand_sdk/agent_manager.py` and `src/cli.py`).

The Python code is embedded shallowly:

* Python `str` values are Lean `String`s; the string primitives the code
  relies on (`startswith`, the `in` operator, `split`, `strip`) are
  re-implemented over `List Char` with CPython semantics (non-overlapping
  left-to-right matching for `split` and `in`).
* The remote AWS endpoints (boto3 clients) are external collaborators.
  Each orchestrator operation is embedded as a pure function of the raw
  responses that the remote would hand back to it: a create outcome, a
  sequence of list pages, a status per poll, a stream of events.
* Exceptions become `Except` / sum results; raising `RuntimeError` or
  `TimeoutError` or re-raising a `ClientError` are distinct constructors.
-/

/-! ## Python string primitives over `List Char` -/

/-- CPython `sub in s` (substring test), on character lists: true iff some
suffix of `s` has `sep` as a prefix.  Matches are sought left to right. -/
def containsSub (sep : List Char) : List Char → Bool
  | [] => sep.isEmpty
  | c :: rest => sep.isPrefixOf (c :: rest) || containsSub sep rest

/-- Worker for CPython `s.split(sep)` with a non-empty separator
`sh :: st`: scan left to right, cutting at each (non-overlapping)
occurrence of the separator.  `acc` holds the characters of the current
part, in reverse.  The `Nat` argument is fuel; each step consumes at
least one input character, so fuel equal to the input length (as
supplied by `pySplitL`) never runs out, and the fuel-exhausted equation
is unreachable there. -/
def splitGo (sh : Char) (st : List Char) : Nat → List Char → List Char → List (List Char)
  | _, acc, [] => [acc.reverse]
  | 0, acc, l => [acc.reverse ++ l]
  | fuel + 1, acc, c :: rest =>
      if (sh :: st).isPrefixOf (c :: rest) then
        acc.reverse :: splitGo sh st fuel [] (rest.drop st.length)
      else
        splitGo sh st fuel (c :: acc) rest

/-- CPython `s.split(sep)` on character lists (the Python code never calls
`split` with an empty separator; that case is mapped to `[s]`). -/
def pySplitL (sep s : List Char) : List (List Char) :=
  match sep with
  | [] => [s]
  | sh :: st => splitGo sh st s.length [] s

/-- CPython `value.startswith(pre)`. -/
def pyStartswith (value pre : String) : Bool :=
  pre.data.isPrefixOf value.data

/-- CPython `sub in value` for strings. -/
def pyIn (sub value : String) : Bool :=
  containsSub sub.data value.data

/-- CPython `value.split(sep)` for strings. -/
def pySplit (value sep : String) : List String :=
  (pySplitL sep.data value.data).map String.mk

/-- The characters CPython `str.strip()` removes (ASCII whitespace; the
source only ever strips ASCII model output). -/
def pyIsSpace (c : Char) : Bool :=
  c = ' ' || c = '\t' || c = '\n' || c = '\r' || c = '\x0b' || c = '\x0c'

/-- CPython `s.strip()`: drop leading and trailing whitespace. -/
def pyStrip (s : String) : String :=
  String.mk (((s.data.dropWhile pyIsSpace).reverse.dropWhile pyIsSpace).reverse)

/-- CPython `"".join(chunks)`. -/
def joinStrings (l : List String) : String :=
  l.foldl (fun a b => a ++ b) ""

example : pySplit "arn:aws:bedrock:us-east-1:1:agent/A1/alias/B2" "/alias/" =
    ["arn:aws:bedrock:us-east-1:1:agent/A1", "B2"] := by decide

example : pyIn "/agent/" "arn:aws:bedrock:us-east-1:1:agent/A1/alias/B2" = false := by decide

example : pyStrip "  Hello world " = "Hello world" := by decide

/-! ## `src/cli.py`: identifier normalization -/

/-- `cli._extract_alias_id`: return the alias ID if given an alias ID or an
alias ARN.  Mirrors the Python source line for line; the `try/except`
around the split is dead code (CPython `split` with a non-empty separator
never raises), so it has no counterpart here. -/
def extract_alias_id (value : String) : String :=
  if value ≠ "" ∧ pyStartswith value "arn:aws:bedrock:" = true ∧ pyIn "/alias/" value = true then
    String.mk ((pySplitL "/alias/".data value.data).getLastD value.data)
  else value

/-- `cli._extract_agent_id`: return the agent ID if given an agent ID or an
agent/alias ARN (per its docstring).  As in the source, the marker tested
and split on is `"/agent/"` with a leading slash; `after.split("/")[0]` is
the head of the split of `after` on `"/"`. -/
def extract_agent_id (value : String) : String :=
  if value ≠ "" ∧ pyStartswith value "arn:aws:bedrock:" = true ∧ pyIn "/agent/" value = true then
    let after := (pySplitL "/agent/".data value.data).getLastD value.data
    String.mk ((pySplitL "/".data after).headD after)
  else value

/-- The two identifier kinds `normalizeIdentifier` distinguishes. -/
inductive IdKind : Type
  | agent : IdKind
  | alias : IdKind
deriving DecidableEq

/-- The orchestrator's `normalizeIdentifier(value, kind)`: dispatch to the
CLI extractor for the requested kind. -/
def normalizeIdentifier (kind : IdKind) (value : String) : String :=
  match kind with
  | .agent => extract_agent_id value
  | .alias => extract_alias_id value

example : normalizeIdentifier .alias "arn:aws:bedrock:us-east-1:111111111111:agent/A1/alias/B2" = "B2" := by
  decide

example : normalizeIdentifier .agent "arn:aws:bedrock:us-east-1:111111111111:agent/A1/alias/B2" =
    "arn:aws:bedrock:us-east-1:111111111111:agent/A1/alias/B2" := by decide

example : normalizeIdentifier .agent "arn:aws:bedrock:us-east-1:1:x/agent/A1/alias/B2" = "A1" := by
  decide

/-! ## `src/aws_strand_sdk/agent_manager.py`: data model

The boto3 clients are external collaborators.  Each operation below is a
pure function of the raw responses the remote service would return to it
during that one call. -/

/-- A structured remote error (`botocore.exceptions.ClientError`):
machine-readable code `e.response["Error"]["Code"]` plus message. -/
structure ClientErr : Type where
  code : String
  message : String
deriving DecidableEq

/-- An agent summary/record as the code reads it: a dictionary from which
only `agentId` and `agentName` are accessed (`.get` returns `none` when a
key is absent). -/
structure AgentSummary : Type where
  agentId : Option String
  agentName : Option String
deriving DecidableEq

/-- One page of a paginated list response.  `firstKey` and `secondKey` are
the two field names the tolerant read probes in order: for `list_agents`
they are `"agents"` and `"agentSummaries"`; for `list_agent_aliases` they
are `"agentAliasSummaries"` and `"agentAliases"`.  `nextToken` is the
continuation token. -/
structure ListPage (α : Type) : Type where
  firstKey : Option (List α)
  secondKey : Option (List α)
  nextToken : Option String
deriving DecidableEq

/-- CPython `a or b or []` on two optional lists: `None` and the empty
list are falsy, so the result is the first operand that is present and
non-empty, else `[]`. -/
def pyOrList {α : Type} (a b : Option (List α)) : List α :=
  match a with
  | some (x :: xs) => x :: xs
  | _ =>
      match b with
      | some m => m
      | none => []

/-- CPython truthiness of the continuation token: present and non-empty.
The loops continue exactly while this holds (`if not token: break`). -/
def tokenPresent (t : Option String) : Bool :=
  match t with
  | some s => !(s == "")
  | none => false

/-- The shared pagination loop of `list_agents` / `list_aliases`: the k-th
iteration consumes the k-th response the service returns; items of each
page are read tolerantly (`pyOrList`) and accumulated; the loop stops at
the first page whose token is absent or empty.  The model feeds the
responses as a list; a run that would issue more requests than there are
responses ends with what it has (the real loop would block on the wire). -/
def collectPages {α : Type} : List (ListPage α) → List α
  | [] => []
  | p :: rest =>
      if tokenPresent p.nextToken then
        pyOrList p.firstKey p.secondKey ++ collectPages rest
      else
        pyOrList p.firstKey p.secondKey

/-- `AgentManager.list_agents`: accumulate all pages
(`agents`/`agentSummaries` keys). -/
def list_agents (pages : List (ListPage AgentSummary)) : List AgentSummary :=
  collectPages pages

/-- An alias summary as the code reads it (`agentAliasId`,
`agentAliasName`). -/
structure AliasSummary : Type where
  agentAliasId : Option String
  agentAliasName : Option String
deriving DecidableEq

/-- `AgentManager.list_aliases`: accumulate all pages
(`agentAliasSummaries`/`agentAliases` keys). -/
def list_aliases (pages : List (ListPage AliasSummary)) : List AliasSummary :=
  collectPages pages

/-- `AgentManager.find_agent_by_name`: first listed agent whose
`agentName` equals `name` (absent `agentName` compares unequal, as
`None == name` is false in Python). -/
def find_agent_by_name (pages : List (ListPage AgentSummary)) (name : String) : Option AgentSummary :=
  (list_agents pages).find? (fun a => a.agentName == some name)

/-- The `AgentConfig` dataclass. -/
structure AgentConfig : Type where
  region : String
  agent_name : String
  foundation_model : String
  instruction : String
  role_arn : String
  description : String := "Sample agent created by aws_strand_sdk"
  idle_ttl_seconds : Nat := 600

/-- The raw remote interactions one `create_agent` call can make: the
outcome of the `create_agent` request itself, the pages `list_agents`
would see afterwards, and the `get_agent` responses by agent id. -/
structure ControlPlane : Type where
  createResp : Except ClientErr AgentSummary
  pages : List (ListPage AgentSummary)
  getAgentF : String → Except ClientErr AgentSummary

/-- `AgentManager.create_agent`: issue the create; on a `ClientError`
whose code is `"ConflictException"`, look the agent up by name and, if a
summary with a truthy `agentId` is found, return `get_agent` of that id;
otherwise re-raise the original error.  Non-conflict errors re-raise
directly. -/
def create_agent (cp : ControlPlane) (cfg : AgentConfig) : Except ClientErr AgentSummary :=
  match cp.createResp with
  | .ok a => .ok a
  | .error e =>
      if e.code = "ConflictException" then
        match find_agent_by_name cp.pages cfg.agent_name with
        | some existing =>
            match existing.agentId with
            | some id => if id ≠ "" then cp.getAgentF id else .error e
            | none => .error e
        | none => .error e
      else .error e

/-! ## `AgentManager.wait_for_status` -/

/-- The three ways `wait_for_status` can end: return the observed status;
raise `RuntimeError` naming the terminal status; raise `TimeoutError`
naming the agent id and the desired status. -/
inductive WaitResult : Type
  | success : String → WaitResult
  | terminal : String → WaitResult
  | timedOut : String → String → WaitResult
deriving DecidableEq

/-- The polling loop of `wait_for_status`.  `statuses k` is the
`agentStatus` field of the k-th `get_agent` response; `elapsed` is the
wall-clock seconds since `start` (each `time.sleep(poll_s)` advances it by
`poll`; the remote calls themselves are instantaneous in the model).  The
first `Nat` argument is fuel, consumed once per sleep: starting it at
`timeout` (as `wait_for_status` does) keeps `timeout ≤ elapsed + fuel * poll`
whenever `poll ≥ 1`, so when fuel hits zero `elapsed < timeout` is already
false and returning `timedOut` coincides with the unbounded loop. -/
def waitLoop (statuses : Nat → String) (agent_id desired : String) (timeout poll : Nat) :
    Nat → Nat → Nat → WaitResult
  | 0, _, _ => .timedOut agent_id desired
  | fuel + 1, k, elapsed =>
      if elapsed < timeout then
        if statuses k = desired then .success (statuses k)
        else if statuses k = "FAILED" ∨ statuses k = "DELETING" then .terminal (statuses k)
        else waitLoop statuses agent_id desired timeout poll fuel (k + 1) (elapsed + poll)
      else .timedOut agent_id desired

/-- `AgentManager.wait_for_status(agent_id, desired, timeout_s, poll_s)`:
poll from `k = 0`, `elapsed = 0`. -/
def wait_for_status (statuses : Nat → String) (agent_id desired : String)
    (timeout poll : Nat) : WaitResult :=
  waitLoop statuses agent_id desired timeout poll timeout 0 0

/-- The `prepare` workflow as the CLI composes it
(`m.prepare_agent(agent_id)` followed by `m.wait_for_status(...)`): the
first component counts the `prepare_agent` calls issued — the source
issues exactly one, unconditionally — and the second is the wait
outcome. -/
def prepare_and_wait (statuses : Nat → String) (agent_id desired : String)
    (timeout poll : Nat) : Nat × WaitResult :=
  (1, wait_for_status statuses agent_id desired timeout poll)

example : wait_for_status (fun _ => "PREPARING") "A1" "PREPARED" 5 2 = .timedOut "A1" "PREPARED" := by
  decide

example : wait_for_status (fun k => if k = 0 then "CREATING" else "PREPARED") "A1" "PREPARED" 600 10 =
    .success "PREPARED" := by decide

example : wait_for_status (fun _ => "FAILED") "A1" "PREPARED" 600 10 = .terminal "FAILED" := by
  decide

example : wait_for_status (fun _ => "FAILED") "A1" "FAILED" 600 10 = .success "FAILED" := by
  decide

/-! ## `AgentManager.invoke` -/

/-- One event of the `completion` EventStream, as the code probes it:
either a dictionary with a `"chunk"` entry (whose optional `bytes`
payload is carried here as its decoded text — `data.decode("utf-8",
errors="ignore")` of the raw bytes; absent or empty bytes decode to the
empty string) or one with a `"finalResponse"` entry carrying an optional
`text`. -/
inductive StreamEvent : Type
  | chunk : Option String → StreamEvent
  | finalResponse : Option String → StreamEvent
deriving DecidableEq

/-- The chunk-collection loop inside `invoke`: a `chunk` event always
appends its decoded text (`""` when `bytes` is absent); a `finalResponse`
event appends its `text` only when that is truthy (present and
non-empty). -/
def collectChunks : List StreamEvent → List String
  | [] => []
  | .chunk b :: rest => b.getD "" :: collectChunks rest
  | .finalResponse t :: rest =>
      match t with
      | some txt => if txt ≠ "" then txt :: collectChunks rest else collectChunks rest
      | none => collectChunks rest

/-- `"".join(chunks).strip()` over a fully consumed stream. -/
def processEvents (events : List StreamEvent) : String :=
  pyStrip (joinStrings (collectChunks events))

/-- The message `invoke` raises for an access-denied `ClientError` —
whether the error was raised by the initial call or while the stream was
being consumed, since `botocore`'s `EventStreamError` subclasses
`ClientError` and the `except ClientError` arm comes first. -/
def accessDeniedCallMsg : String :=
  "Access denied invoking agent. Ensure your caller has bedrock:InvokeAgent and (for streaming) bedrock:InvokeModelWithResponseStream permissions."

/-- The message of the source's second, `except EventStreamError` handler.
That handler is dead code: `EventStreamError` subclasses `ClientError` in
`botocore.exceptions`, so every mid-stream error is already caught by the
preceding `except ClientError` arm and this message is never raised. -/
def accessDeniedStreamMsg : String :=
  "Access denied during agent streaming. Grant bedrock:InvokeAgent and bedrock:InvokeModelWithResponseStream to the invoking identity and retry."

/-- What the runtime endpoint does on one `invoke_agent` call: deliver a
full event stream, reject the call with a `ClientError` before streaming
begins, or fail mid-stream with an `EventStreamError` — which is itself a
`ClientError` carrying a machine-readable code (for a mid-stream
permission failure, `accessDeniedException`). -/
inductive InvokeCall : Type
  | ok : List StreamEvent → InvokeCall
  | clientError : ClientErr → InvokeCall
  | streamError : ClientErr → InvokeCall
deriving DecidableEq

/-- What `AgentManager.invoke` raises: a rewritten `RuntimeError`, or the
re-raised original error (a `ClientError`, possibly its
`EventStreamError` subclass). -/
inductive InvokeError : Type
  | rewritten : String → InvokeError
  | client : ClientErr → InvokeError
deriving DecidableEq

/-- `AgentManager.invoke`, as a function of the runtime call's outcome:
concatenate and strip the stream text on success; on an error — raised
before streaming or mid-stream alike, since both are `ClientError`s and
the `except ClientError` arm is tried first — rewrite the access-denied
codes `AccessDeniedException`/`accessDeniedException` into the one fixed
actionable message and re-raise anything else.  The source's trailing
`except EventStreamError` arm is unreachable and has no counterpart
here. -/
def invoke (call : InvokeCall) : Except InvokeError String :=
  match call with
  | .ok events => .ok (processEvents events)
  | .clientError e =>
      if e.code = "AccessDeniedException" ∨ e.code = "accessDeniedException" then
        .error (.rewritten accessDeniedCallMsg)
      else .error (.client e)
  | .streamError e =>
      if e.code = "AccessDeniedException" ∨ e.code = "accessDeniedException" then
        .error (.rewritten accessDeniedCallMsg)
      else .error (.client e)

example : invoke (.ok [.chunk (some "Hel"), .chunk (some "lo"), .finalResponse (some " world")]) =
    .ok "Hello world" := by rfl

/-! ## A simulated control plane (environment model)

The remote agent platform itself is outside the repository; the spec
treats it as an external collaborator.  For the end-to-end idempotency
property ("two sequential calls with the same name return records with
the same id") we run `create_agent` against a conforming simulated
service: create rejects with `ConflictException` exactly when the name is
taken, `list_agents` reports every stored agent on one page, and
`get_agent` looks the record up by id. -/

/-- State of the simulated control plane: the stored agents and a counter
used to mint fresh agent ids. -/
structure SimService : Type where
  agents : List AgentSummary
  counter : Nat
deriving DecidableEq

/-- The simulated account before any agent exists. -/
def SimService.empty : SimService := ⟨[], 0⟩

/-- Fresh agent ids minted by the simulated service. -/
def mintId (n : Nat) : String := "AGENT" ++ toString n

/-- The raw `create_agent` request against the simulated service:
conflict iff an agent with this name already exists, otherwise store and
return a fresh record. -/
def simCreate (s : SimService) (cfg : AgentConfig) : SimService × Except ClientErr AgentSummary :=
  if s.agents.any (fun a => a.agentName == some cfg.agent_name) then
    (s, .error ⟨"ConflictException", "agent with this name already exists"⟩)
  else
    let a : AgentSummary := ⟨some (mintId s.counter), some cfg.agent_name⟩
    (⟨s.agents ++ [a], s.counter + 1⟩, .ok a)

/-- The view of the simulated service that one `create_agent` call
observes, given the raw create outcome `r`: a single list page holding
every stored agent, and lookup by id for `get_agent`. -/
def simPlane (s : SimService) (r : Except ClientErr AgentSummary) : ControlPlane :=
  { createResp := r
    pages := [⟨some s.agents, none, none⟩]
    getAgentF := fun id =>
      match s.agents.find? (fun a => a.agentId == some id) with
      | some a => .ok a
      | none => .error ⟨"ResourceNotFoundException", "agent not found"⟩ }

/-- One `AgentManager.create_agent` call against the simulated service:
issue the raw create, then run the orchestrator's conflict recovery
against the resulting service state. -/
def create_agent_sim (s : SimService) (cfg : AgentConfig) :
    SimService × Except ClientErr AgentSummary :=
  let step := simCreate s cfg
  (step.1, create_agent (simPlane step.1 step.2) cfg)

/-! ## Statements taken from the specification's wording

These definitions follow the spec text (not the source); the theorems
compare the source-derived functions against them. -/

/-- Spec side, claim C7: the text carried by one stream fragment ("all
text-bearing fragments", an absent payload bearing no text). -/
def fragmentText : StreamEvent → String
  | .chunk b => b.getD ""
  | .finalResponse t => t.getD ""

/-- Spec side, claim C8: the responses the pagination loop consumes —
every page through the first one that carries no (truthy) continuation
token. -/
def takenPages {α : Type} : List (ListPage α) → List (ListPage α)
  | [] => []
  | p :: rest => if tokenPresent p.nextToken then p :: takenPages rest else [p]

/-- Spec side, claim C8 ("preferring the first present"): read a page's
items from the first field name that is present, treating absence of both
as the empty sequence.  This is the claim's wording; the source instead
lets a present-but-empty first field fall through to the second. -/
def claimPageItems {α : Type} (p : ListPage α) : List α :=
  match p.firstKey with
  | some l => l
  | none =>
      match p.secondKey with
      | some m => m
      | none => []

/-- The locator segment marker each extractor tests for and splits on;
used to state when an input is "unparseable" for a kind (the extractor's
guard fails and the input passes through unchanged). -/
def kindMarker : IdKind → String
  | .agent => "/agent/"
  | .alias => "/alias/"

/-! ## Lemmas about the string primitives -/

lemma isPrefixOf_append {p a b : List Char} (h : p.isPrefixOf a = true) :
    p.isPrefixOf (a ++ b) = true := by
  induction p generalizing a with
  | nil => simp [List.isPrefixOf]
  | cons c cs ih =>
      cases a with
      | nil => simp [List.isPrefixOf] at h
      | cons x xs =>
          simp only [List.cons_append, List.isPrefixOf, Bool.and_eq_true, beq_iff_eq] at h ⊢
          exact ⟨h.1, ih h.2⟩

lemma containsSub_iff {sep s : List Char} :
    containsSub sep s = true ↔ ∃ k, sep.isPrefixOf (s.drop k) = true := by
  induction s with
  | nil =>
      constructor
      · intro h
        cases sep with
        | nil => exact ⟨0, rfl⟩
        | cons a as => simp [containsSub] at h
      · rintro ⟨k, hk⟩
        cases sep with
        | nil => rfl
        | cons a as => rw [List.drop_nil] at hk; simp [List.isPrefixOf] at hk
  | cons c rest ih =>
      simp only [containsSub, Bool.or_eq_true, ih]
      constructor
      · rintro (h | ⟨k, hk⟩)
        · exact ⟨0, h⟩
        · exact ⟨k + 1, by simpa [List.drop_succ_cons] using hk⟩
      · rintro ⟨k, hk⟩
        cases k with
        | zero => exact Or.inl (by simpa using hk)
        | succ k => exact Or.inr ⟨k, by simpa [List.drop_succ_cons] using hk⟩

lemma splitGo_ne_nil (sh : Char) (st : List Char) (fuel : Nat) (acc s : List Char) :
    splitGo sh st fuel acc s ≠ [] := by
  induction fuel generalizing acc s with
  | zero => cases s <;> simp [splitGo]
  | succ fuel ih =>
      cases s with
      | nil => simp [splitGo]
      | cons c rest =>
          by_cases h : (sh :: st).isPrefixOf (c :: rest) = true
          · simp [splitGo, h]
          · simpa [splitGo, h] using ih (c :: acc) rest

lemma getLastD_congr {α : Type} {L : List α} (h : L ≠ []) (d₁ d₂ : α) :
    L.getLastD d₁ = L.getLastD d₂ := by
  cases L with
  | nil => exact absurd rfl h
  | cons a l => rw [List.getLastD_cons, List.getLastD_cons]

/-- If no occurrence of the separator starts inside the first
`acc.length` positions of `acc.reverse ++ s`, the separator does not
occur in `acc.reverse` at all. -/
lemma not_contains_of_noOcc {sh : Char} {st : List Char} {acc s : List Char}
    (hno : ∀ j, j < acc.length → (sh :: st).isPrefixOf ((acc.reverse ++ s).drop j) = false) :
    containsSub (sh :: st) acc.reverse = false := by
  by_contra hcon
  rw [Bool.not_eq_false, containsSub_iff] at hcon
  obtain ⟨k, hk⟩ := hcon
  by_cases hklt : k < acc.length
  · have hsplit : (acc.reverse ++ s).drop k = acc.reverse.drop k ++ s.drop (k - acc.reverse.length) := 
      List.drop_append_eq_append_drop
    have hz : k - acc.reverse.length = 0 := by
      rw [List.length_reverse]; omega
    have : (sh :: st).isPrefixOf ((acc.reverse ++ s).drop k) = true := by
      rw [hsplit, hz, List.drop_zero]
      exact isPrefixOf_append hk
    rw [hno k hklt] at this
    exact Bool.false_ne_true this
  · have : acc.reverse.drop k = [] := by
      apply List.drop_eq_nil_of_le
      rw [List.length_reverse]; omega
    rw [this] at hk
    simp [List.isPrefixOf] at hk

/-- The final part produced by the split scan contains no occurrence of
the separator: every character that ends up in the final part was
examined at a position where the separator did not match. -/
lemma splitGo_getLastD_not_contains (sh : Char) (st : List Char) :
    ∀ (fuel : Nat) (s acc : List Char), s.length ≤ fuel →
      (∀ j, j < acc.length → (sh :: st).isPrefixOf ((acc.reverse ++ s).drop j) = false) →
      containsSub (sh :: st) ((splitGo sh st fuel acc s).getLastD []) = false := by
  intro fuel
  induction fuel with
  | zero =>
      intro s acc hlen hno
      have hs : s = [] := List.length_eq_zero.mp (Nat.le_zero.mp hlen)
      subst hs
      simpa [splitGo] using not_contains_of_noOcc hno
  | succ fuel ih =>
      intro s acc hlen hno
      cases s with
      | nil => simpa [splitGo] using not_contains_of_noOcc hno
      | cons c rest =>
          by_cases hpre : (sh :: st).isPrefixOf (c :: rest) = true
          · rw [show splitGo sh st (fuel + 1) acc (c :: rest) =
                  acc.reverse :: splitGo sh st fuel [] (rest.drop st.length) from by
                simp [splitGo, hpre]]
            rw [List.getLastD_cons,
                getLastD_congr (splitGo_ne_nil sh st fuel [] (rest.drop st.length)) acc.reverse []]
            apply ih
            · have : rest.length ≤ fuel := by simpa using hlen
              have hd : (rest.drop st.length).length = rest.length - st.length :=
                List.length_drop st.length rest
              omega
            · intro j hj
              exact absurd hj (by simp)
          · rw [show splitGo sh st (fuel + 1) acc (c :: rest) =
                  splitGo sh st fuel (c :: acc) rest from by simp [splitGo, hpre]]
            apply ih
            · simpa using Nat.le_of_succ_le_succ (by simpa using hlen)
            · intro j hj
              have hrw : (c :: acc).reverse ++ rest = acc.reverse ++ (c :: rest) := by
                simp [List.reverse_cons, List.append_assoc]
              rw [hrw]
              rcases Nat.lt_succ_iff_lt_or_eq.mp (by simpa using hj) with hlt | heq
              · exact hno j hlt
              · have hj' : j = acc.reverse.length := by rw [List.length_reverse]; exact heq
                rw [hj', List.drop_left]
                exact Bool.eq_false_iff.mpr hpre

/-- Likewise, the first part produced by the split scan contains no
occurrence of the separator. -/
lemma splitGo_headD_not_contains (sh : Char) (st : List Char) :
    ∀ (fuel : Nat) (s acc : List Char), s.length ≤ fuel →
      (∀ j, j < acc.length → (sh :: st).isPrefixOf ((acc.reverse ++ s).drop j) = false) →
      containsSub (sh :: st) ((splitGo sh st fuel acc s).headD []) = false := by
  intro fuel
  induction fuel with
  | zero =>
      intro s acc hlen hno
      have hs : s = [] := List.length_eq_zero.mp (Nat.le_zero.mp hlen)
      subst hs
      simpa [splitGo] using not_contains_of_noOcc hno
  | succ fuel ih =>
      intro s acc hlen hno
      cases s with
      | nil => simpa [splitGo] using not_contains_of_noOcc hno
      | cons c rest =>
          by_cases hpre : (sh :: st).isPrefixOf (c :: rest) = true
          · rw [show splitGo sh st (fuel + 1) acc (c :: rest) =
                  acc.reverse :: splitGo sh st fuel [] (rest.drop st.length) from by
                simp [splitGo, hpre]]
            simpa using not_contains_of_noOcc hno
          · rw [show splitGo sh st (fuel + 1) acc (c :: rest) =
                  splitGo sh st fuel (c :: acc) rest from by simp [splitGo, hpre]]
            apply ih
            · simpa using Nat.le_of_succ_le_succ (by simpa using hlen)
            · intro j hj
              have hrw : (c :: acc).reverse ++ rest = acc.reverse ++ (c :: rest) := by
                simp [List.reverse_cons, List.append_assoc]
              rw [hrw]
              rcases Nat.lt_succ_iff_lt_or_eq.mp (by simpa using hj) with hlt | heq
              · exact hno j hlt
              · have hj' : j = acc.reverse.length := by rw [List.length_reverse]; exact heq
                rw [hj', List.drop_left]
                exact Bool.eq_false_iff.mpr hpre

lemma pySplitL_getLastD_not_contains (sep s : List Char) (hne : sep ≠ []) :
    containsSub sep ((pySplitL sep s).getLastD s) = false := by
  match sep, hne with
  | sh :: st, _ =>
      rw [pySplitL, getLastD_congr (splitGo_ne_nil sh st s.length [] s) s []]
      exact splitGo_getLastD_not_contains sh st s.length s [] (Nat.le_refl _)
        (fun j hj => absurd hj (by simp))

lemma headD_congr {α : Type} {L : List α} (h : L ≠ []) (d₁ d₂ : α) :
    L.headD d₁ = L.headD d₂ := by
  cases L with
  | nil => exact absurd rfl h
  | cons a l => rfl

lemma pySplitL_headD_not_contains (sep s : List Char) (hne : sep ≠ []) :
    containsSub sep ((pySplitL sep s).headD s) = false := by
  match sep, hne with
  | sh :: st, _ =>
      rw [pySplitL, headD_congr (splitGo_ne_nil sh st s.length [] s) s []]
      exact splitGo_headD_not_contains sh st s.length s [] (Nat.le_refl _)
        (fun j hj => absurd hj (by simp))

lemma mem_head_of_containsSub {c : Char} {cs l : List Char}
    (h : containsSub (c :: cs) l = true) : c ∈ l := by
  induction l with
  | nil => simp [containsSub] at h
  | cons x xs ih =>
      simp only [containsSub, Bool.or_eq_true] at h
      rcases h with h | h
      · simp only [List.isPrefixOf, Bool.and_eq_true, beq_iff_eq] at h
        rw [h.1]
        exact List.mem_cons_self x xs
      · exact List.mem_cons_of_mem x (ih h)

lemma containsSub_single_of_mem {c : Char} {l : List Char} (h : c ∈ l) :
    containsSub [c] l = true := by
  induction l with
  | nil => simp at h
  | cons x xs ih =>
      simp only [containsSub, Bool.or_eq_true]
      rcases List.mem_cons.mp h with rfl | h
      · exact Or.inl (by simp [List.isPrefixOf])
      · exact Or.inr (ih h)

/-! ## Idempotence of the identifier extractors -/

lemma extract_alias_id_of_not_contains {v : String} (h : pyIn "/alias/" v = false) :
    extract_alias_id v = v := by
  simp only [extract_alias_id]
  rw [if_neg]
  rintro ⟨-, -, h3⟩
  rw [h] at h3
  exact Bool.false_ne_true h3

lemma extract_alias_id_eq_of_cond {x : String}
    (hc : x ≠ "" ∧ pyStartswith x "arn:aws:bedrock:" = true ∧ pyIn "/alias/" x = true) :
    extract_alias_id x = String.mk ((pySplitL "/alias/".data x.data).getLastD x.data) := by
  simp only [extract_alias_id]
  rw [if_pos hc]

lemma extract_alias_id_idem (x : String) :
    extract_alias_id (extract_alias_id x) = extract_alias_id x := by
  by_cases hc : x ≠ "" ∧ pyStartswith x "arn:aws:bedrock:" = true ∧ pyIn "/alias/" x = true
  · apply extract_alias_id_of_not_contains
    rw [extract_alias_id_eq_of_cond hc]
    exact pySplitL_getLastD_not_contains "/alias/".data x.data (by decide)
  · have hx : extract_alias_id x = x := by simp only [extract_alias_id]; rw [if_neg hc]
    rw [hx]
    exact hx

lemma extract_agent_id_of_not_contains {v : String} (h : pyIn "/agent/" v = false) :
    extract_agent_id v = v := by
  simp only [extract_agent_id]
  rw [if_neg]
  rintro ⟨-, -, h3⟩
  rw [h] at h3
  exact Bool.false_ne_true h3

lemma extract_agent_id_eq_of_cond {x : String}
    (hc : x ≠ "" ∧ pyStartswith x "arn:aws:bedrock:" = true ∧ pyIn "/agent/" x = true) :
    extract_agent_id x =
      String.mk ((pySplitL "/".data ((pySplitL "/agent/".data x.data).getLastD x.data)).headD
        ((pySplitL "/agent/".data x.data).getLastD x.data)) := by
  simp only [extract_agent_id]
  rw [if_pos hc]

lemma extract_agent_id_idem (x : String) :
    extract_agent_id (extract_agent_id x) = extract_agent_id x := by
  by_cases hc : x ≠ "" ∧ pyStartswith x "arn:aws:bedrock:" = true ∧ pyIn "/agent/" x = true
  · apply extract_agent_id_of_not_contains
    rw [extract_agent_id_eq_of_cond hc]
    by_contra hcon
    rw [Bool.not_eq_false] at hcon
    have hcon' : containsSub ('/' :: "agent/".data)
        ((pySplitL "/".data ((pySplitL "/agent/".data x.data).getLastD x.data)).headD
          ((pySplitL "/agent/".data x.data).getLastD x.data)) = true := hcon
    have hmem := mem_head_of_containsSub hcon'
    have hsingle := containsSub_single_of_mem hmem
    have hnone := pySplitL_headD_not_contains "/".data
      ((pySplitL "/agent/".data x.data).getLastD x.data) (by decide)
    rw [show containsSub "/".data
        ((pySplitL "/".data ((pySplitL "/agent/".data x.data).getLastD x.data)).headD
          ((pySplitL "/agent/".data x.data).getLastD x.data)) =
        containsSub ['/']
        ((pySplitL "/".data ((pySplitL "/agent/".data x.data).getLastD x.data)).headD
          ((pySplitL "/agent/".data x.data).getLastD x.data)) from rfl] at hnone
    rw [hsingle] at hnone
    exact absurd hnone (by decide)
  · have hx : extract_agent_id x = x := by simp only [extract_agent_id]; rw [if_neg hc]
    rw [hx]
    exact hx

/-! ## String concatenation lemmas -/

lemma string_append_assoc (a b c : String) : a ++ b ++ c = a ++ (b ++ c) := by
  rcases a with ⟨la⟩
  rcases b with ⟨lb⟩
  rcases c with ⟨lc⟩
  show String.mk (la ++ lb ++ lc) = String.mk (la ++ (lb ++ lc))
  rw [List.append_assoc]

lemma string_append_empty (a : String) : a ++ "" = a := by
  rcases a with ⟨la⟩
  show String.mk (la ++ []) = String.mk la
  rw [List.append_nil]

lemma string_empty_append (a : String) : "" ++ a = a := by
  rcases a with ⟨la⟩
  show String.mk ([] ++ la) = String.mk la
  rw [List.nil_append]

lemma joinStrings_foldl (l : List String) (x : String) :
    l.foldl (fun a b => a ++ b) x = x ++ joinStrings l := by
  induction l generalizing x with
  | nil => exact (string_append_empty x).symm
  | cons b l ih =>
      show l.foldl (fun a b => a ++ b) (x ++ b) = x ++ joinStrings (b :: l)
      rw [ih (x ++ b)]
      have hb : joinStrings (b :: l) = b ++ joinStrings l := by
        show l.foldl (fun a b => a ++ b) ("" ++ b) = b ++ joinStrings l
        rw [ih ("" ++ b), string_empty_append]
      rw [hb, string_append_assoc]

lemma joinStrings_cons (a : String) (l : List String) :
    joinStrings (a :: l) = a ++ joinStrings l := by
  show l.foldl (fun a b => a ++ b) ("" ++ a) = a ++ joinStrings l
  rw [joinStrings_foldl, string_empty_append]

/-- The chunk-collection loop concatenates to the same string as mapping
each event to its fragment text: the only difference is that falsy final
texts are skipped rather than appended, and they are empty. -/
lemma collectChunks_join (events : List StreamEvent) :
    joinStrings (collectChunks events) = joinStrings (events.map fragmentText) := by
  induction events with
  | nil => rfl
  | cons e rest ih =>
      cases e with
      | chunk b =>
          rw [List.map_cons, show collectChunks (.chunk b :: rest) =
              b.getD "" :: collectChunks rest from rfl,
            joinStrings_cons, joinStrings_cons, ih]
          rfl
      | finalResponse t =>
          cases t with
          | none =>
              rw [List.map_cons, show collectChunks (.finalResponse none :: rest) =
                  collectChunks rest from rfl, joinStrings_cons, ih]
              show joinStrings (rest.map fragmentText) = "" ++ joinStrings (rest.map fragmentText)
              rw [string_empty_append]
          | some txt =>
              by_cases h : txt = ""
              · subst h
                rw [List.map_cons, show collectChunks (.finalResponse (some "") :: rest) =
                    collectChunks rest from by simp [collectChunks], joinStrings_cons, ih]
                show joinStrings (rest.map fragmentText) = "" ++ joinStrings (rest.map fragmentText)
                rw [string_empty_append]
              · rw [List.map_cons, show collectChunks (.finalResponse (some txt) :: rest) =
                    txt :: collectChunks rest from by simp [collectChunks, h],
                  joinStrings_cons, joinStrings_cons, ih]
                rfl

/-! ## Lemmas about the polling loop -/

lemma waitLoop_cases (statuses : Nat → String) (aid desired : String) (timeout poll : Nat) :
    ∀ (fuel k elapsed : Nat),
      waitLoop statuses aid desired timeout poll fuel k elapsed = .timedOut aid desired ∨
      (∃ j, waitLoop statuses aid desired timeout poll fuel k elapsed = .success desired ∧
        statuses j = desired) ∨
      (∃ j s, (s = "FAILED" ∨ s = "DELETING") ∧
        waitLoop statuses aid desired timeout poll fuel k elapsed = .terminal s ∧
        statuses j = s) := by
  intro fuel
  induction fuel with
  | zero => intro k elapsed; exact Or.inl rfl
  | succ fuel ih =>
      intro k elapsed
      by_cases hel : elapsed < timeout
      · by_cases hd : statuses k = desired
        · exact Or.inr (Or.inl ⟨k, by simp [waitLoop, hel, hd], hd⟩)
        · by_cases hterm : statuses k = "FAILED" ∨ statuses k = "DELETING"
          · exact Or.inr (Or.inr ⟨k, statuses k, hterm, by simp [waitLoop, hel, hd, hterm], rfl⟩)
          · rw [show waitLoop statuses aid desired timeout poll (fuel + 1) k elapsed =
                  waitLoop statuses aid desired timeout poll fuel (k + 1) (elapsed + poll) from by
                simp [waitLoop, hel, hd, hterm]]
            exact ih (k + 1) (elapsed + poll)
      · exact Or.inl (by simp [waitLoop, hel])

lemma waitLoop_preparing (statuses : Nat → String) (aid desired : String) (timeout poll : Nat)
    (hall : ∀ k, statuses k = "PREPARING") (hd : desired ≠ "PREPARING") :
    ∀ (fuel k elapsed : Nat),
      waitLoop statuses aid desired timeout poll fuel k elapsed = .timedOut aid desired := by
  intro fuel
  induction fuel with
  | zero => intro k elapsed; rfl
  | succ fuel ih =>
      intro k elapsed
      by_cases hel : elapsed < timeout
      · have h1 : ¬ statuses k = desired := by rw [hall k]; exact fun h => hd h.symm
        have h2 : ¬ (statuses k = "FAILED" ∨ statuses k = "DELETING") := by
          rw [hall k]
          rintro (h | h) <;> exact absurd h (by decide)
        simp [waitLoop, hel, h1, h2, ih]
      · simp [waitLoop, hel]

lemma wait_for_status_failed_first_poll (statuses : Nat → String) (aid desired : String)
    (timeout poll : Nat) (hfail : statuses 0 = "FAILED") (hd : desired ≠ "FAILED")
    (ht : 0 < timeout) :
    wait_for_status statuses aid desired timeout poll = .terminal "FAILED" := by
  cases timeout with
  | zero => exact absurd ht (by omega)
  | succ t =>
      have h1 : ¬ "FAILED" = desired := fun h => hd h.symm
      simp [wait_for_status, waitLoop, h1, hfail]

/-! ## Lemmas about pagination -/

lemma collectPages_eq_join {α : Type} (pages : List (ListPage α)) :
    collectPages pages =
      ((takenPages pages).map (fun p => pyOrList p.firstKey p.secondKey)).flatten := by
  induction pages with
  | nil => rfl
  | cons p rest ih =>
      by_cases h : tokenPresent p.nextToken = true
      · simp [collectPages, takenPages, h, ih]
      · simp [collectPages, takenPages, h]

/-! ## Claim theorems -/

/-- Claim C4: `normalizeIdentifier` is total (a Lean function, with the
source's `try/except` arms dead code) and idempotent on every string
input for both kinds, and an input the guard rejects (unparseable) is
returned unchanged. -/
theorem c4_normalize_total_idempotent :
    ∀ (kind : IdKind) (x : String),
      normalizeIdentifier kind (normalizeIdentifier kind x) = normalizeIdentifier kind x ∧
      (¬ (x ≠ "" ∧ pyStartswith x "arn:aws:bedrock:" = true ∧ pyIn (kindMarker kind) x = true) →
        normalizeIdentifier kind x = x) := by
  intro kind x
  cases kind
  · refine ⟨extract_agent_id_idem x, fun h => ?_⟩
    simp only [kindMarker] at h
    show extract_agent_id x = x
    simp only [extract_agent_id]
    rw [if_neg h]
  · refine ⟨extract_alias_id_idem x, fun h => ?_⟩
    simp only [kindMarker] at h
    show extract_alias_id x = x
    simp only [extract_alias_id]
    rw [if_neg h]

/-- Witness for C4 at concrete inputs: a bare identifier and an ARN. -/
theorem c4_normalize_total_idempotent_witness :
    normalizeIdentifier .alias (normalizeIdentifier .alias "not-an-arn") =
      normalizeIdentifier .alias "not-an-arn" ∧
    normalizeIdentifier .alias "not-an-arn" = "not-an-arn" ∧
    normalizeIdentifier .agent (normalizeIdentifier .agent
        "arn:aws:bedrock:us-east-1:1:x/agent/A1/alias/B2") =
      normalizeIdentifier .agent "arn:aws:bedrock:us-east-1:1:x/agent/A1/alias/B2" := by
  refine ⟨(c4_normalize_total_idempotent .alias "not-an-arn").1,
    (c4_normalize_total_idempotent .alias "not-an-arn").2 (by decide),
    (c4_normalize_total_idempotent .agent "arn:aws:bedrock:us-east-1:1:x/agent/A1/alias/B2").1⟩

/-- Claim C5, settled against the code: alias extraction from the ARN and
bare passthrough behave as claimed, but agent extraction from the very
same ARN returns the input unchanged (the code probes for a
slash-delimited `"/agent/"` marker, and the ARN's marker is `":agent/"`),
not `"A1"` as claimed. -/
theorem c5_extract_concrete_behavior :
    normalizeIdentifier .alias "arn:aws:bedrock:us-east-1:111111111111:agent/A1/alias/B2" =
      "B2" ∧
    normalizeIdentifier .alias "B2" = "B2" ∧
    normalizeIdentifier .agent "arn:aws:bedrock:us-east-1:111111111111:agent/A1/alias/B2" =
      "arn:aws:bedrock:us-east-1:111111111111:agent/A1/alias/B2" ∧
    normalizeIdentifier .agent "arn:aws:bedrock:us-east-1:111111111111:agent/A1/alias/B2" ≠
      "A1" := by
  decide

/-- Claim C6, settled against the code: on locators of the documented
form `prefix:agent/AGENT_ID[/alias/ALIAS_ID]`, agent-kind extraction
never fires (the code requires a `"/agent/"` marker and an
`arn:aws:bedrock:` prefix), and for a non-`arn:aws:bedrock:` prefix the
alias kind does not fire either: all are returned unchanged. -/
theorem c6_locator_extraction_behavior :
    normalizeIdentifier .agent "arn:aws:bedrock:us-east-1:123456789012:agent/5YVSEANCUS" =
      "arn:aws:bedrock:us-east-1:123456789012:agent/5YVSEANCUS" ∧
    normalizeIdentifier .agent "arn:aws:bedrock:us-east-1:123456789012:agent/5YVSEANCUS" ≠
      "5YVSEANCUS" ∧
    normalizeIdentifier .agent "myprefix:agent/AGENTID/alias/ALIASID" =
      "myprefix:agent/AGENTID/alias/ALIASID" ∧
    normalizeIdentifier .alias "myprefix:agent/AGENTID/alias/ALIASID" =
      "myprefix:agent/AGENTID/alias/ALIASID" := by
  decide

/-- Claim C7: `invoke` concatenates the text of every stream fragment in
arrival order and strips the result; in particular the documented stream
yields `"Hello world"`. -/
theorem c7_invoke_concatenation :
    (∀ events : List StreamEvent,
        processEvents events = pyStrip (joinStrings (events.map fragmentText))) ∧
    invoke (.ok [.chunk (some "Hel"), .chunk (some "lo"), .finalResponse (some " world")]) =
      .ok "Hello world" := by
  constructor
  · intro events
    show pyStrip (joinStrings (collectChunks events)) = _
    rw [collectChunks_join]
  · rfl

/-- Counterexample to Claim C8 as stated: a page whose first field is
present but empty and whose second field holds an item.  The claim's
"prefer the first present" read yields no items, but the code (a Python
`or` chain, for which an empty list is falsy) returns the second field's
item. -/
theorem c8_prefer_first_counterexample :
    list_agents [⟨some [], some [⟨some "A1", some "demo"⟩], none⟩] ≠
      ((takenPages [(⟨some [], some [⟨some "A1", some "demo"⟩], none⟩ :
        ListPage AgentSummary)]).map claimPageItems).flatten := by
  decide

/-- Claim C8 as amended: both list operations return the in-order
concatenation of the items of every page up to and including the first
page carrying no (truthy) continuation token; each page's items are read
from the first of the two field names that is present and non-empty, a
present-but-empty first field falling through to the second, and absence
of both is the empty sequence. -/
theorem c8_pagination_union :
    (∀ pages : List (ListPage AgentSummary),
        list_agents pages =
          ((takenPages pages).map (fun p => pyOrList p.firstKey p.secondKey)).flatten) ∧
    (∀ pages : List (ListPage AliasSummary),
        list_aliases pages =
          ((takenPages pages).map (fun p => pyOrList p.firstKey p.secondKey)).flatten) ∧
    (∀ (p : ListPage AgentSummary) (l : List AgentSummary),
        p.firstKey = some l → l ≠ [] → pyOrList p.firstKey p.secondKey = l) ∧
    (∀ p : ListPage AgentSummary,
        p.firstKey = none ∨ p.firstKey = some [] →
        pyOrList p.firstKey p.secondKey = p.secondKey.getD []) ∧
    (∀ p : ListPage AgentSummary,
        p.firstKey = none → p.secondKey = none → pyOrList p.firstKey p.secondKey = []) := by
  refine ⟨fun pages => collectPages_eq_join pages, fun pages => collectPages_eq_join pages,
    ?_, ?_, ?_⟩
  · intro p l h1 h2
    cases l with
    | nil => exact absurd rfl h2
    | cons x xs => rw [h1]; rfl
  · intro p h
    rcases h with h | h <;> rw [h] <;> cases p.secondKey <;> rfl
  · intro p h1 h2
    rw [h1, h2]; rfl

/-- Witness for C8 at a concrete three-page response sequence (two items
per page, continuation tokens on the first two pages) and concrete
tolerant reads. -/
theorem c8_pagination_union_witness :
    list_agents
        [⟨some [⟨some "A1", none⟩, ⟨some "A2", none⟩], none, some "t1"⟩,
         ⟨none, some [⟨some "A3", none⟩, ⟨some "A4", none⟩], some "t2"⟩,
         ⟨some [⟨some "A5", none⟩, ⟨some "A6", none⟩], none, none⟩] =
      ((takenPages
        [(⟨some [⟨some "A1", none⟩, ⟨some "A2", none⟩], none, some "t1"⟩ :
            ListPage AgentSummary),
         ⟨none, some [⟨some "A3", none⟩, ⟨some "A4", none⟩], some "t2"⟩,
         ⟨some [⟨some "A5", none⟩, ⟨some "A6", none⟩], none, none⟩]).map
        (fun p => pyOrList p.firstKey p.secondKey)).flatten ∧
    pyOrList (some [(⟨some "A1", none⟩ : AgentSummary)]) (some [⟨some "A2", none⟩]) =
      [⟨some "A1", none⟩] ∧
    pyOrList (some ([] : List AgentSummary)) (some [⟨some "A2", none⟩]) =
      (some [(⟨some "A2", none⟩ : AgentSummary)]).getD [] := by
  refine ⟨c8_pagination_union.1 _, ?_, ?_⟩
  · exact c8_pagination_union.2.2.1 ⟨some [⟨some "A1", none⟩], some [⟨some "A2", none⟩], none⟩
      [⟨some "A1", none⟩] rfl (by decide)
  · exact c8_pagination_union.2.2.2.1 ⟨some [], some [⟨some "A2", none⟩], none⟩ (Or.inr rfl)

/-- Claim C2: the prepare workflow issues `prepare_agent` exactly once
and the wait terminates in exactly one of the three documented ways —
success exactly when some poll observed the desired status, immediate
non-retryable failure when a poll observed `FAILED`/`DELETING` (at the
first poll this holds for every positive timeout, irrespective of any
later statuses, so it happens before the timeout elapses and without
further polling), or a timeout condition carrying the agent id and the
desired status; against a service that always reports `PREPARING` the
result is the timeout condition.  The hypothesis `0 < poll` is the
regime in which the fuel-bounded loop model coincides with the unbounded
Python loop. -/
theorem c2_prepare_and_wait_exits :
    ∀ (statuses : Nat → String) (aid desired : String) (timeout poll : Nat), 0 < poll →
      (prepare_and_wait statuses aid desired timeout poll).1 = 1 ∧
      ((prepare_and_wait statuses aid desired timeout poll).2 = .timedOut aid desired ∨
        (∃ j, (prepare_and_wait statuses aid desired timeout poll).2 = .success desired ∧
          statuses j = desired) ∨
        (∃ j s, (s = "FAILED" ∨ s = "DELETING") ∧
          (prepare_and_wait statuses aid desired timeout poll).2 = .terminal s ∧
          statuses j = s)) ∧
      ((∀ k, statuses k = "PREPARING") → desired ≠ "PREPARING" →
        (prepare_and_wait statuses aid desired timeout poll).2 = .timedOut aid desired) ∧
      (statuses 0 = "FAILED" → desired ≠ "FAILED" → 0 < timeout →
        (prepare_and_wait statuses aid desired timeout poll).2 = .terminal "FAILED") := by
  intro statuses aid desired timeout poll _hp
  refine ⟨rfl, ?_, ?_, ?_⟩
  · exact waitLoop_cases statuses aid desired timeout poll timeout 0 0
  · intro hall hd
    exact waitLoop_preparing statuses aid desired timeout poll hall hd timeout 0 0
  · intro hfail hd ht
    exact wait_for_status_failed_first_poll statuses aid desired timeout poll hfail hd ht

/-- Witness for C2: a service stuck in `PREPARING` times out naming the
agent and the desired status; a service reporting `FAILED` at the first
poll fails immediately with the terminal condition. -/
theorem c2_prepare_and_wait_exits_witness :
    (prepare_and_wait (fun _ => "PREPARING") "A1" "PREPARED" 3 1).2 =
      .timedOut "A1" "PREPARED" ∧
    (prepare_and_wait (fun _ => "FAILED") "A1" "PREPARED" 600 10).2 = .terminal "FAILED" := by
  constructor
  · exact (c2_prepare_and_wait_exits (fun _ => "PREPARING") "A1" "PREPARED" 3 1
      (by decide)).2.2.1 (fun _ => rfl) (by decide)
  · exact (c2_prepare_and_wait_exits (fun _ => "FAILED") "A1" "PREPARED" 600 10
      (by decide)).2.2.2 rfl (by decide) (by decide)

/-- Claim C9: in `wait_for_status` the desired-status comparison precedes
the terminal-status check, so when the desired status is itself `FAILED`
or `DELETING` and the first poll observes it, the wait returns it as a
success instead of raising the terminal-state error. -/
theorem c9_desired_checked_before_terminal :
    ∀ (statuses : Nat → String) (aid desired : String) (timeout poll : Nat),
      (desired = "FAILED" ∨ desired = "DELETING") → statuses 0 = desired → 0 < timeout →
      wait_for_status statuses aid desired timeout poll = .success desired := by
  intro statuses aid desired timeout poll _hterm h0 ht
  cases timeout with
  | zero => exact absurd ht (by omega)
  | succ t => simp [wait_for_status, waitLoop, h0]

/-- Witness for C9: polling for `FAILED` with a service that reports
`FAILED` succeeds. -/
theorem c9_desired_checked_before_terminal_witness :
    wait_for_status (fun _ => "FAILED") "A1" "FAILED" 600 10 = .success "FAILED" :=
  c9_desired_checked_before_terminal (fun _ => "FAILED") "A1" "FAILED" 600 10
    (Or.inl rfl) rfl (by decide)

/-- Claim C3: an access-denied error raised before streaming begins and
one raised mid-stream (an `EventStreamError`, which subclasses
`ClientError` and is therefore caught by the same `except ClientError`
arm) surface the one same rewritten human-actionable message — indeed
every error is handled identically on the two paths — and that message
names both required permissions (`bedrock:InvokeAgent` and
`bedrock:InvokeModelWithResponseStream`). -/
theorem c3_access_denied_same_message :
    (∀ e : ClientErr,
        e.code = "AccessDeniedException" ∨ e.code = "accessDeniedException" →
        invoke (.clientError e) = .error (.rewritten accessDeniedCallMsg)) ∧
    (∀ e : ClientErr,
        e.code = "AccessDeniedException" ∨ e.code = "accessDeniedException" →
        invoke (.streamError e) = .error (.rewritten accessDeniedCallMsg)) ∧
    (∀ e : ClientErr, invoke (.clientError e) = invoke (.streamError e)) ∧
    pyIn "bedrock:InvokeAgent" accessDeniedCallMsg = true ∧
    pyIn "bedrock:InvokeModelWithResponseStream" accessDeniedCallMsg = true := by
  refine ⟨?_, ?_, fun e => rfl, by decide, by decide⟩
  · intro e h
    simp only [invoke]
    rw [if_pos h]
  · intro e h
    simp only [invoke]
    rw [if_pos h]

/-- Witness for C3 at a concrete pre-stream rejection and a concrete
mid-stream failure: both yield the identical rewritten message. -/
theorem c3_access_denied_same_message_witness :
    invoke (.clientError ⟨"AccessDeniedException", "nope"⟩) =
      .error (.rewritten accessDeniedCallMsg) ∧
    invoke (.streamError ⟨"accessDeniedException", "denied mid-stream"⟩) =
      .error (.rewritten accessDeniedCallMsg) :=
  ⟨c3_access_denied_same_message.1 ⟨"AccessDeniedException", "nope"⟩ (Or.inl rfl),
   c3_access_denied_same_message.2.1 ⟨"accessDeniedException", "denied mid-stream"⟩
     (Or.inr rfl)⟩

/-- Claim C1: when the remote rejects a create with the conflict code and
the by-name lookup finds a summary with a truthy id, `create_agent`
returns the `get_agent` record for that id instead of failing; any
non-conflict error propagates unchanged; and against the conforming
simulated service, two sequential `create_agent` calls with the same spec
return the very same record (hence the same id), the second observing a
conflict from the underlying create. -/
theorem c1_idempotent_create :
    (∀ (cp : ControlPlane) (cfg : AgentConfig) (e : ClientErr) (a : AgentSummary) (id : String),
        cp.createResp = .error e → e.code = "ConflictException" →
        find_agent_by_name cp.pages cfg.agent_name = some a → a.agentId = some id → id ≠ "" →
        create_agent cp cfg = cp.getAgentF id) ∧
    (∀ (cp : ControlPlane) (cfg : AgentConfig) (e : ClientErr),
        cp.createResp = .error e → e.code ≠ "ConflictException" →
        create_agent cp cfg = .error e) ∧
    (∀ cfg : AgentConfig,
        ∃ (s₁ : SimService) (a : AgentSummary),
          create_agent_sim SimService.empty cfg = (s₁, .ok a) ∧
          create_agent_sim s₁ cfg = (s₁, .ok a) ∧
          (simCreate s₁ cfg).2 =
            .error ⟨"ConflictException", "agent with this name already exists"⟩) := by
  refine ⟨?_, ?_, ?_⟩
  · intro cp cfg e a id h1 h2 h3 h4 h5
    simp [create_agent, h1, h2, h3, h4, h5]
  · intro cp cfg e h1 h2
    simp [create_agent, h1, h2]
  · intro cfg
    refine ⟨⟨[⟨some (mintId 0), some cfg.agent_name⟩], 1⟩,
      ⟨some (mintId 0), some cfg.agent_name⟩, rfl, ?_, ?_⟩
    · have hmint : (mintId 0 : String) ≠ "" := by decide
      simp [create_agent_sim, simCreate, create_agent, simPlane, find_agent_by_name,
        list_agents, collectPages, pyOrList, tokenPresent, List.find?, hmint]
    · simp [simCreate]

/-- Witness for C1: conflict recovery at a concrete control plane whose
lookup finds the existing agent, and unchanged propagation of a concrete
throttling error. -/
theorem c1_idempotent_create_witness :
    create_agent ⟨.error ⟨"ConflictException", "exists"⟩,
        [⟨some [⟨some "A1", some "demo"⟩], none, none⟩],
        fun id => .ok ⟨some id, some "demo"⟩⟩
      ⟨"us-east-1", "demo", "m", "instr", "role", "d", 600⟩ = .ok ⟨some "A1", some "demo"⟩ ∧
    create_agent ⟨.error ⟨"ThrottlingException", "slow"⟩, [], fun _ => .error ⟨"X", "Y"⟩⟩
      ⟨"us-east-1", "demo", "m", "instr", "role", "d", 600⟩ =
      .error ⟨"ThrottlingException", "slow"⟩ := by
  constructor
  · exact (c1_idempotent_create.1 _ _ ⟨"ConflictException", "exists"⟩ ⟨some "A1", some "demo"⟩
      "A1" rfl rfl (by decide) rfl (by decide)).trans rfl
  · exact c1_idempotent_create.2.1 _ _ ⟨"ThrottlingException", "slow"⟩ rfl (by decide)

/-- Claim C10: conflict recovery is conditional on a successful lookup —
if the by-name lookup finds nothing, or the found summary has no truthy
`agentId`, the original conflict error is re-raised. -/
theorem c10_conflict_reraise_without_lookup :
    ∀ (cp : ControlPlane) (cfg : AgentConfig) (e : ClientErr),
      cp.createResp = .error e → e.code = "ConflictException" →
      (find_agent_by_name cp.pages cfg.agent_name = none ∨
        ∃ a, find_agent_by_name cp.pages cfg.agent_name = some a ∧
          (a.agentId = none ∨ a.agentId = some "")) →
      create_agent cp cfg = .error e := by
  intro cp cfg e h1 h2 h3
  rcases h3 with h3 | ⟨a, h3, h4⟩
  · simp [create_agent, h1, h2, h3]
  · rcases h4 with h4 | h4 <;> simp [create_agent, h1, h2, h3, h4]

/-- Witness for C10: a conflict whose lookup finds no agent of that name
re-raises the conflict. -/
theorem c10_conflict_reraise_without_lookup_witness :
    create_agent ⟨.error ⟨"ConflictException", "exists"⟩, [], fun _ => .error ⟨"X", "Y"⟩⟩
      ⟨"us-east-1", "demo", "m", "instr", "role", "d", 600⟩ =
      .error ⟨"ConflictException", "exists"⟩ :=
  c10_conflict_reraise_without_lookup _ _ ⟨"ConflictException", "exists"⟩ rfl rfl
    (Or.inl (by decide))
